import Mathlib

/-!
Verification of the GamesParser delivery pipeline against its
natural-language specification.

The definitions below are a shallow embedding of the Python source:
  - `src/src/main.py`            (`NewsMonitor.process_new_posts`)
  - `src/src/bot/bot.py`         (`TelegramNewsBot`)
  - `src/src/storage/storage.py` (`PostStorage`)
  - `src/src/storage/database.py`(`Database`)
  - `src/src/models/models.py`   (`PostMetadata`, `Post`)
Datetimes are modelled as `Nat` ticks (0 plays the role of `datetime.min`),
delays as rationals, transport and filesystem outcomes as explicit oracles.
-/

/-- Model of `Post` restricted to the fields the delivery pipeline reads:
`id` and the optional publish timestamp `metadata.date`
(`src/src/models/models.py`, used by `src/src/main.py`). -/
structure PostM where
  id : String
  date : Option Nat
deriving DecidableEq, Repr

/-- Sort key used at `src/src/main.py` line 68:
`x.metadata.date if x.metadata and x.metadata.date else datetime.min`.
A missing date is keyed by `datetime.min`, modelled as `0`. -/
def dateKey (p : PostM) : Nat :=
  p.date.getD 0

/-- Insertion step of a stable sort by `dateKey`: the new element is placed
after every element whose key is `≤` its own, so equal keys keep input
order.  Python `list.sort` is a stable sort by this key; stable sorts by
the same key are extensionally equal, so this embeds line 68 of
`src/src/main.py` faithfully. -/
def insertPost (p : PostM) : List PostM → List PostM
  | [] => [p]
  | q :: qs => if dateKey q ≤ dateKey p then q :: insertPost p qs else p :: q :: qs

/-- Stable sort of a batch by publish date, embedding
`new_posts.sort(key=...)` at `src/src/main.py` line 68. -/
def sortPosts (l : List PostM) : List PostM :=
  l.foldl (fun acc p => insertPost p acc) []

/-- Result of running one delivery batch: the dedupe-store contents after
the loop and the trace of transport calls `(post id, send succeeded)`,
in the order the calls were made. -/
structure BatchResult where
  processed : List String
  trace : List (String × Bool)
deriving DecidableEq, Repr

/-- The per-post loop of `NewsMonitor.process_new_posts`
(`src/src/main.py` lines 71-100): re-check `is_processed` before sending,
skip if already processed, otherwise send (the transport outcome of the
`n`-th call is `tr n`) and mark as processed only on success. -/
def processLoop (tr : Nat → Bool) : List PostM → List String → Nat → BatchResult
  | [], processed, _ => { processed := processed, trace := [] }
  | p :: ps, processed, n =>
    if p.id ∈ processed then
      processLoop tr ps processed n
    else
      let ok := tr n
      let processed2 := if ok then p.id :: processed else processed
      let rest := processLoop tr ps processed2 (n + 1)
      { processed := rest.processed, trace := (p.id, ok) :: rest.trace }

/-- `NewsMonitor.process_new_posts` (`src/src/main.py` lines 64-100):
filter out already-processed posts, sort by date, then run the delivery
loop against the dedupe store `storage`. -/
def processNewPosts (tr : Nat → Bool) (storage : List String) (posts : List PostM) :
    BatchResult :=
  let newPosts := posts.filter (fun p => !(storage.contains p.id))
  processLoop tr (sortPosts newPosts) storage 0

/-- State of `PostStorage` (`src/src/storage/storage.py`): the in-memory
`posts` dict (post id with its `created_at`), the in-memory
`processed_posts` set, and the contents last written to the backing file
(the `"posts"` and `"processed_posts"` keys of the JSON document).
`Database` (`src/src/storage/database.py`) is the same state restricted
to the processed set. -/
structure PStorage where
  posts : List (String × Option Nat)
  processedPosts : List String
  diskPosts : List (String × Option Nat)
  diskProcessed : List String
deriving DecidableEq, Repr

/-- Python `set.add`: append the element only if absent. -/
def setAdd (id : String) (s : List String) : List String :=
  if id ∈ s then s else s ++ [id]

/-- `_save_data` (`src/src/storage/storage.py` lines 51-65): serialize the
full in-memory state to disk.  The whole body is wrapped in
`try/except` that only logs, so a failed write (`ok = false`) leaves the
disk unchanged and raises nothing. -/
def saveData (ok : Bool) (st : PStorage) : PStorage :=
  if ok then { st with diskPosts := st.posts, diskProcessed := st.processedPosts } else st

/-- State change of `mark_as_processed` (`src/src/storage/storage.py`
lines 81-89, identically `src/src/storage/database.py` lines 41-48):
add the id to the in-memory set, then flush via `_save_data`. -/
def markStep (ok : Bool) (id : String) (st : PStorage) : PStorage :=
  saveData ok { st with processedPosts := setAdd id st.processedPosts }

/-- `mark_as_processed` as seen by its caller.  The body is wrapped in
`try/except Exception` that logs and returns normally, and `_save_data`
additionally swallows its own I/O errors, so the call never raises:
the result is always `Except.ok`, whatever the flush outcome `ok`. -/
def markAsProcessed (ok : Bool) (id : String) (st : PStorage) : Except String PStorage :=
  Except.ok (markStep ok id st)

/-- `is_processed` (`src/src/storage/storage.py` lines 91-93):
pure membership test on the in-memory set. -/
def isProcessed (id : String) (st : PStorage) : Bool :=
  st.processedPosts.contains id

/-- Python dict update `posts[post.id] = post`: replace in place if the
key exists, else append. -/
def assocSet (p : String × Option Nat) (l : List (String × Option Nat)) :
    List (String × Option Nat) :=
  if l.any (fun q => q.1 == p.1) then
    l.map (fun q => if q.1 == p.1 then p else q)
  else
    l ++ [p]

/-- `save_post` (`src/src/storage/storage.py` lines 67-75): store the post
in the `posts` dict and flush.  Does not touch `processed_posts`. -/
def savePost (ok : Bool) (p : String × Option Nat) (st : PStorage) : PStorage :=
  saveData ok { st with posts := assocSet p st.posts }

/-- `cleanup_old_posts` (`src/src/storage/storage.py` lines 95-110):
collect ids of posts whose `created_at` is older than `now - days`,
delete those posts, `discard` their ids from `processed_posts`,
then flush. -/
def cleanupOldPosts (ok : Bool) (days now : Nat) (st : PStorage) : PStorage :=
  let cutoff : Int := (now : Int) - (days : Int) * 86400
  let oldIds := (st.posts.filter (fun pc =>
    match pc.2 with
    | some c => decide ((c : Int) < cutoff)
    | none => false)).map (fun pc => pc.1)
  saveData ok
    { st with
      posts := st.posts.filter (fun pc => !(oldIds.contains pc.1)),
      processedPosts := st.processedPosts.filter (fun i => !(oldIds.contains i)) }

/-- The mutating operations the delivery pipeline itself performs on the
store (`mark_as_processed` on success, `save_post` when caching a post);
`is_processed` is a pure read and has no state effect. -/
inductive PipeOp
  | markOp (ok : Bool) (id : String)
  | savePostOp (ok : Bool) (p : String × Option Nat)
deriving DecidableEq, Repr

/-- Apply one pipeline store operation. -/
def applyOp (o : PipeOp) (st : PStorage) : PStorage :=
  match o with
  | PipeOp.markOp ok id => markStep ok id st
  | PipeOp.savePostOp ok p => savePost ok p st

/-- Apply a sequence of pipeline store operations, oldest first. -/
def applyOps (ops : List PipeOp) (st : PStorage) : PStorage :=
  ops.foldl (fun s o => applyOp o s) st

/-- Health-related fields of `TelegramNewsBot` (`src/src/bot/bot.py`
lines 80-87) plus an instrumentation counter `opCalls` recording how many
times the wrapped transport method has been invoked. -/
structure BotState where
  connectionErrors : Nat
  rateLimitErrors : Nat
  lastSuccess : Nat
  lastRateLimit : Option Nat
  opCalls : Nat
deriving DecidableEq, Repr

/-- Bot state right after construction (`src/src/bot/bot.py` lines 80-87):
all counters zero, `_last_rate_limit = None`, `_last_successful_request`
set to the current time. -/
def initBotState (now : Nat) : BotState :=
  { connectionErrors := 0, rateLimitErrors := 0, lastSuccess := now,
    lastRateLimit := none, opCalls := 0 }

/-- The success branch of `_send_with_retry` (`src/src/bot/bot.py`
lines 194-198): on a truthy result the bot sets
`_last_successful_request = datetime.now()` and `_rate_limit_errors = 0`.
No other field is written there. -/
def recordSuccess (now : Nat) (st : BotState) : BotState :=
  { st with lastSuccess := now, rateLimitErrors := 0 }

/-- `_calculate_delay` (`src/src/bot/bot.py` lines 129-154) as a pure
function of the attempt index, the rate-limit flag and the sampled jitter
(the source draws `jitter` from `uniform(-5, 5)`; we take it as an
argument).  Constants are `DEFAULT_DELAYS`: multiplier 2, growth factor 2,
min 20, max 300; `retryDelay` is the bot's `retry_delay` (default 30).
The source also increments `_rate_limit_errors` when `isRateLimit` is set;
that side effect is on the bot state, not on the returned delay. -/
def calculateDelay (retryDelay : ℚ) (attempt : Nat) (isRateLimit : Bool) (jitter : ℚ) : ℚ :=
  let base := if isRateLimit then retryDelay * 2 else retryDelay
  let d := base * 2 ^ attempt + jitter
  max 20 (min d 300)

/-- Result of `urlparse` on a raw media URL string
(`src/src/bot/bot.py` line 398): the raw string and its
scheme/netloc/path components. -/
structure UrlParts where
  raw : String
  scheme : String
  netloc : String
  path : String
deriving DecidableEq, Repr

/-- `_clean_url` (`src/src/bot/bot.py` lines 392-412): empty input gives
`""`; a URL without scheme or netloc is invalid and gives `""`; otherwise
query parameters are dropped and `http://` is rewritten to `https://`. -/
def cleanUrl (u : UrlParts) : String :=
  if u.raw = "" then ""
  else if u.scheme = "" ∨ u.netloc = "" then ""
  else
    let c := u.scheme ++ "://" ++ u.netloc ++ u.path
    if u.scheme ≠ "https" then c.replace "http://" "https://" else c

/-- The media-group construction loop of `send_message`
(`src/src/bot/bot.py` lines 279-297): slice to the first `max_images = 5`
URLs, clean each, and skip the ones whose cleaned form is invalid
(empty). -/
def mediaGroupOf (imgs : List UrlParts) : List String :=
  (imgs.take 5).filterMap (fun u =>
    let c := cleanUrl u
    if c = "" then none else some c)

/-- `send_message` (`src/src/bot/bot.py` lines 271-327) reduced to its
success/failure behaviour.  `mediaOk` (resp. `textOk`) is whether the
retried `send_media_group` (resp. `send_message`) transport call returns a
truthy result.  A falsy `images` argument (None or `[]`) takes the
text-only branch; otherwise the media group is built and, if no valid
URL survives cleaning, the function returns `False` without calling the
transport. -/
def sendMessage (mediaOk textOk : Bool) (images : Option (List UrlParts)) : Bool :=
  match images with
  | none => textOk
  | some imgs =>
    if imgs.isEmpty then textOk
    else if (mediaGroupOf imgs).isEmpty then false
    else mediaOk

/-- Outcome of one invocation of the transport method wrapped by
`_send_with_retry`: a truthy result, a falsy/None result, or one of the
exception classes distinguished at `src/src/bot/bot.py` lines 203-239. -/
inductive CallOutcome where
  | ok
  | noneRes
  | retryAfter (w : Nat)
  | netErr
  | tgErr
  | otherErr
deriving DecidableEq, Repr

/-- The exception classes `_send_with_retry` can re-raise. -/
inductive SendErr where
  | netErr
  | tgErr
  | otherErr
  | retryAfterErr (w : Nat)
deriving DecidableEq, Repr

/-- How `_send_with_retry` returns to its caller: a truthy value,
`None` (all attempts consumed with no recorded error), or a raised
exception. -/
inductive RetryRes where
  | value
  | noResult
  | raised (e : SendErr)
deriving DecidableEq, Repr

/-- `_check_rate_limit` (`src/src/bot/bot.py` lines 156-175): returns
`false` (after sleeping) when `_last_rate_limit` is set,
`_rate_limit_errors >= 3`, and the last signal lies within the 3600 s
window; no counter is modified either way. -/
def checkRateLimit (now : Nat) (st : BotState) : Bool :=
  match st.lastRateLimit with
  | none => true
  | some t =>
    if st.rateLimitErrors ≥ 3 then
      if now - t < 3600 then false else true
    else true

/-- `_check_connection` (`src/src/bot/bot.py` lines 97-127): when
`_connection_errors >= 10` and the last success is within the 300 s
window, sleep, reset the counter and return `false`; otherwise probe
`get_me()` (outcome `connOk attempt`), on success record the success time
and reset the counter, on failure increment it.  Returns
(check passed, updated state). -/
def checkConnection (connOk : Nat → Bool) (now attempt : Nat) (st : BotState) :
    Bool × BotState :=
  if st.connectionErrors ≥ 10 then
    if now - st.lastSuccess < 300 then
      (false, { st with connectionErrors := 0 })
    else if connOk attempt then
      (true, { st with lastSuccess := now, connectionErrors := 0 })
    else
      (false, { st with connectionErrors := st.connectionErrors + 1 })
  else if connOk attempt then
    (true, { st with lastSuccess := now, connectionErrors := 0 })
  else
    (false, { st with connectionErrors := st.connectionErrors + 1 })

/-- The loop of `_send_with_retry` (`src/src/bot/bot.py` lines 177-247).
`fuel` is the number of remaining iterations of
`for attempt in range(max_retries)`, so the current attempt index is
`maxR - fuel`.  `op a` is the outcome of invoking the wrapped method on
attempt `a`; `connOk a` is whether the `get_me()` probe inside
`_check_connection` succeeds on attempt `a`.  Sleeps are not modelled;
time is frozen at `now`.  Each iteration runs `_check_rate_limit`, then
`_check_connection`, then invokes the method and dispatches on its
outcome exactly as the `try/except` arms at lines 194-243 do; after the
last iteration the recorded `last_error` is raised, else `None` is
returned. -/
def sendWithRetryAux (op : Nat → CallOutcome) (connOk : Nat → Bool) (now maxR : Nat) :
    Nat → Option SendErr → BotState → BotState × RetryRes
  | 0, lastError, st =>
    (st, match lastError with
         | some e => RetryRes.raised e
         | none => RetryRes.noResult)
  | fuel + 1, lastError, st =>
    let attempt := maxR - (fuel + 1)
    if checkRateLimit now st then
      let cc := checkConnection connOk now attempt st
      if cc.1 then
        let st1 := { cc.2 with opCalls := cc.2.opCalls + 1 }
        match op attempt with
        | CallOutcome.ok => (recordSuccess now st1, RetryRes.value)
        | CallOutcome.noneRes =>
          sendWithRetryAux op connOk now maxR fuel lastError st1
        | CallOutcome.retryAfter w =>
          sendWithRetryAux op connOk now maxR fuel (some (SendErr.retryAfterErr w))
            { st1 with lastRateLimit := some now }
        | CallOutcome.netErr =>
          let st2 := { st1 with connectionErrors := st1.connectionErrors + 1 }
          if attempt = maxR - 1 then (st2, RetryRes.raised SendErr.netErr)
          else sendWithRetryAux op connOk now maxR fuel (some SendErr.netErr) st2
        | CallOutcome.tgErr => (st1, RetryRes.raised SendErr.tgErr)
        | CallOutcome.otherErr =>
          let st2 := { st1 with connectionErrors := st1.connectionErrors + 1 }
          if attempt = maxR - 1 then (st2, RetryRes.raised SendErr.otherErr)
          else sendWithRetryAux op connOk now maxR fuel (some SendErr.otherErr) st2
      else
        sendWithRetryAux op connOk now maxR fuel lastError cc.2
    else
      sendWithRetryAux op connOk now maxR fuel lastError st

/-- `_send_with_retry` entry point: run the loop with `max_retries`
iterations remaining and no recorded error. -/
def sendWithRetry (op : Nat → CallOutcome) (connOk : Nat → Bool) (now maxR : Nat)
    (st : BotState) : BotState × RetryRes :=
  sendWithRetryAux op connOk now maxR maxR none st

/-- How `send_message` converts the retry outcome into its boolean return
(`src/src/bot/bot.py` lines 304-327): `bool(result)` on a value, `False`
on `None`, and `False` via the enclosing `except` block on a raise. -/
def sendMessageResult (r : RetryRes) : Bool :=
  match r with
  | RetryRes.value => true
  | RetryRes.noResult => false
  | RetryRes.raised _ => false

/-- The commit step of `process_new_posts` (`src/src/main.py`
lines 89-95): `mark_as_processed` runs only when the send reported
success. -/
def commitOnSuccess (ok : Bool) (id : String) (storage : List String) : List String :=
  if ok then setAdd id storage else storage

/-- An admissible enumeration of a Python `set` built from a list:
`e l` lists the distinct elements of `l` in some order.  CPython's
iteration order over a set of strings is unspecified (hash-based and
randomized), so `list(set(v))` is `e v` for some admissible `e`. -/
def IsSetEnum (e : List String → List String) : Prop :=
  ∀ l, (e l).Nodup ∧ ∀ x, x ∈ e l ↔ x ∈ l

/-- `PostMetadata.clean_images` (`src/src/models/models.py` lines 29-33):
`return list(set(v))`, parameterized by the admissible set enumeration
`e` chosen by the runtime. -/
def cleanImages (e : List String → List String) (v : List String) : List String :=
  e v

/-! ## Helper lemmas about the store operations -/

theorem mem_setAdd_self (id : String) (l : List String) : id ∈ setAdd id l := by
  unfold setAdd
  split
  · assumption
  · simp

theorem mem_setAdd_of_mem (id : String) {a : String} {l : List String} (h : a ∈ l) :
    a ∈ setAdd id l := by
  unfold setAdd
  split
  · exact h
  · exact List.mem_append_left _ h

theorem setAdd_eq_of_mem {id : String} {l : List String} (h : id ∈ l) : setAdd id l = l := by
  unfold setAdd
  exact if_pos h

theorem setAdd_nodup {l : List String} (h : l.Nodup) (id : String) : (setAdd id l).Nodup := by
  unfold setAdd
  split
  · exact h
  · next hid => simp [List.nodup_append, h, hid]

theorem contains_setAdd_self (id : String) (l : List String) :
    (setAdd id l).contains id = true := by
  simpa using mem_setAdd_self id l

theorem processedPosts_saveData (ok : Bool) (st : PStorage) :
    (saveData ok st).processedPosts = st.processedPosts := by
  unfold saveData
  split <;> rfl

/-! ## Claim theorems C3-C10 -/

/-- Claim C3 (confirmed): marking an identifier delivered twice is a no-op
success the second time — the state after the second call equals the state
after the first, the call still returns without error, `is_processed` is
true, and the persisted set contains the identifier exactly once. -/
theorem mark_as_processed_idempotent (st : PStorage) (id : String)
    (h : st.processedPosts.Nodup) :
    markStep true id (markStep true id st) = markStep true id st
    ∧ markAsProcessed true id (markStep true id st) = Except.ok (markStep true id st)
    ∧ isProcessed id (markStep true id st) = true
    ∧ (markStep true id (markStep true id st)).diskProcessed.count id = 1 := by
  have hm : setAdd id (setAdd id st.processedPosts) = setAdd id st.processedPosts :=
    setAdd_eq_of_mem (mem_setAdd_self id st.processedPosts)
  have hstep : markStep true id (markStep true id st) = markStep true id st := by
    simp [markStep, saveData, hm]
  refine ⟨hstep, by rw [markAsProcessed, hstep], ?_, ?_⟩
  · simp only [markStep, saveData, isProcessed, if_true]
    simpa using mem_setAdd_self id st.processedPosts
  · rw [hstep]
    show (setAdd id st.processedPosts).count id = 1
    exact List.count_eq_one_of_mem (setAdd_nodup h id) (mem_setAdd_self id st.processedPosts)

/-- Witness for C3 at the empty store and identifier `"a"`. -/
theorem mark_as_processed_idempotent_witness :
    ([] : List String).Nodup
    ∧ (markStep true "a" (markStep true "a" ⟨[], [], [], []⟩)
        = markStep true "a" ⟨[], [], [], []⟩
      ∧ markAsProcessed true "a" (markStep true "a" ⟨[], [], [], []⟩)
          = Except.ok (markStep true "a" ⟨[], [], [], []⟩)
      ∧ isProcessed "a" (markStep true "a" ⟨[], [], [], []⟩) = true
      ∧ (markStep true "a" (markStep true "a" ⟨[], [], [], []⟩)).diskProcessed.count "a" = 1) :=
  ⟨List.nodup_nil, mark_as_processed_idempotent ⟨[], [], [], []⟩ "a" List.nodup_nil⟩

/-- Claim C4 (counterexample): the claim predicts that recording a success
leaves the rate-limit counter unchanged and zeroes the consecutive-error
counter; at the state with 3 connection errors and 2 rate-limit errors the
success branch of `_send_with_retry` does neither. -/
theorem record_success_counterexample :
    ¬ ((recordSuccess 10 ⟨3, 2, 0, none, 0⟩).rateLimitErrors
          = (⟨3, 2, 0, none, 0⟩ : BotState).rateLimitErrors
       ∧ (recordSuccess 10 ⟨3, 2, 0, none, 0⟩).connectionErrors = 0) := by
  decide

/-- Claim C4 (corrected): a successful transport call updates the
last-success timestamp and resets the rate-limit-signal counter to zero,
while leaving the consecutive-transport-error counter (and the rate-limit
window start) unchanged. -/
theorem record_success_effects (now : Nat) (st : BotState) :
    (recordSuccess now st).rateLimitErrors = 0
    ∧ (recordSuccess now st).connectionErrors = st.connectionErrors
    ∧ (recordSuccess now st).lastSuccess = now
    ∧ (recordSuccess now st).lastRateLimit = st.lastRateLimit :=
  ⟨rfl, rfl, rfl, rfl⟩

/-- Claim C5 (confirmed): for every attempt index up to 10, both failure
classes and any jitter within ±5, the computed delay lies within
[20, 300] seconds. -/
theorem calculate_delay_bounds (retryDelay : ℚ) (attempt : Nat) (isRateLimit : Bool)
    (jitter : ℚ) (ha : attempt ≤ 10) (hj1 : -5 ≤ jitter) (hj2 : jitter ≤ 5) :
    20 ≤ calculateDelay retryDelay attempt isRateLimit jitter
    ∧ calculateDelay retryDelay attempt isRateLimit jitter ≤ 300 := by
  unfold calculateDelay
  refine ⟨le_max_left _ _, max_le (by norm_num) (min_le_right _ _)⟩

/-- Witness for C5 at attempt 3, rate-limited, zero jitter, default base
delay 30. -/
theorem calculate_delay_bounds_witness :
    (3 : Nat) ≤ 10 ∧ (-5 : ℚ) ≤ 0 ∧ (0 : ℚ) ≤ 5
    ∧ (20 ≤ calculateDelay 30 3 true 0 ∧ calculateDelay 30 3 true 0 ≤ 300) := by
  refine ⟨by norm_num, by norm_num, by norm_num, ?_⟩
  exact calculate_delay_bounds 30 3 true 0 (by norm_num) (by norm_num) (by norm_num)

/-- Claim C6 (counterexample): the claim predicts a persistence I/O error
is reported to the caller of the mutating operation; in the source
`mark_as_processed` and `_save_data` both swallow the exception, so the
call with a failing flush still returns a plain success (and the
in-memory set, not the disk, holds the new id). -/
theorem mark_as_processed_swallows_error :
    markAsProcessed false "x" ⟨[], [], [], []⟩ = Except.ok ⟨[], ["x"], [], []⟩ := rfl

/-- Claim C6 (corrected): a failing flush is caught and logged rather than
reported — the mutating call returns success; the in-memory update is not
dropped, the disk is left unchanged by the failed flush, and the next
successful flush serializes the full current in-memory set, including the
identifier whose earlier flush failed. -/
theorem persistence_failure_behaviour (st : PStorage) (id : String) :
    markAsProcessed false id st = Except.ok (markStep false id st)
    ∧ isProcessed id (markStep false id st) = true
    ∧ (markStep false id st).diskProcessed = st.diskProcessed
    ∧ (markStep false id st).diskPosts = st.diskPosts
    ∧ (saveData true (markStep false id st)).diskProcessed = setAdd id st.processedPosts
    ∧ (saveData true (markStep false id st)).diskProcessed.contains id = true := by
  refine ⟨rfl, ?_, rfl, rfl, rfl, ?_⟩
  · show (setAdd id st.processedPosts).contains id = true
    exact contains_setAdd_self id st.processedPosts
  · show (setAdd id st.processedPosts).contains id = true
    exact contains_setAdd_self id st.processedPosts

/-- Claim C7 (counterexample): the claim predicts no core operation ever
removes an identifier from the dedupe store; `cleanup_old_posts` removes
the processed mark of post "A" (created at time 0) once it is older than
the 7-day cutoff. -/
theorem cleanup_removes_processed_id :
    isProcessed "A" ⟨[("A", some 0)], ["A"], [("A", some 0)], ["A"]⟩ = true
    ∧ isProcessed "A"
        (cleanupOldPosts true 7 1000000 ⟨[("A", some 0)], ["A"], [("A", some 0)], ["A"]⟩)
      = false := by
  decide

/-- Claim C7 (corrected): the operations the delivery pipeline itself
performs on the store — `mark_as_processed` and `save_post`, with
`is_processed` a pure read — never remove an identifier: an identifier
present in the store stays present after any sequence of them.  Only the
separate `cleanup_old_posts` maintenance call deletes identifiers (of
posts older than its cutoff), as the counterexample shows. -/
theorem pipeline_ops_never_remove (ops : List PipeOp) (st : PStorage) (id : String)
    (h : isProcessed id st = true) : isProcessed id (applyOps ops st) = true := by
  induction ops generalizing st with
  | nil => exact h
  | cons o os ih =>
    have hstep : isProcessed id (applyOp o st) = true := by
      cases o with
      | markOp ok j =>
        have hmem : id ∈ st.processedPosts := by simpa [isProcessed] using h
        show (saveData ok _).processedPosts.contains id = true
        rw [processedPosts_saveData]
        simpa using mem_setAdd_of_mem j hmem
      | savePostOp ok p =>
        show (saveData ok _).processedPosts.contains id = true
        rw [processedPosts_saveData]
        exact h
    exact ih (applyOp o st) hstep

/-- Witness for C7 (corrected) : the identifier `"x"` survives a mark of
another id followed by a post save. -/
theorem pipeline_ops_never_remove_witness :
    isProcessed "x" ⟨[], ["x"], [], []⟩ = true
    ∧ isProcessed "x"
        (applyOps [PipeOp.markOp true "y", PipeOp.savePostOp true ("p", none)]
          ⟨[], ["x"], [], []⟩) = true :=
  ⟨by decide,
   pipeline_ops_never_remove [PipeOp.markOp true "y", PipeOp.savePostOp true ("p", none)]
     ⟨[], ["x"], [], []⟩ "x" (by decide)⟩

/-- Claim C8 (counterexample): the claim predicts that an item whose every
media URL is invalid after cleaning degrades to a text-only send and is
delivered whenever the text transport call succeeds; in the source
`send_message` returns `False` when no valid URL survives, even though
both transport calls would succeed. -/
theorem send_message_invalid_media_counterexample :
    sendMessage true true (some [⟨"notaurl", "", "", ""⟩]) = false
    ∧ sendMessage true true none = true := ⟨rfl, rfl⟩

/-- Claim C8 (corrected): an item with zero media attachments (images
`None` or `[]`) is sent text-only and is delivered exactly when the text
transport call succeeds; an item whose every media URL is invalid after
cleaning is not degraded to text — `send_message` reports failure without
contacting the transport. -/
theorem send_message_media_cases :
    (∀ mediaOk textOk : Bool, sendMessage mediaOk textOk none = textOk)
    ∧ (∀ mediaOk textOk : Bool, sendMessage mediaOk textOk (some []) = textOk)
    ∧ ∀ (mediaOk textOk : Bool) (imgs : List UrlParts), imgs ≠ [] →
        (∀ u ∈ imgs, cleanUrl u = "") → sendMessage mediaOk textOk (some imgs) = false := by
  refine ⟨fun _ _ => rfl, fun _ _ => rfl, ?_⟩
  intro mediaOk textOk imgs hne hall
  cases imgs with
  | nil => exact absurd rfl hne
  | cons u rest =>
    have hmg : mediaGroupOf (u :: rest) = [] := by
      unfold mediaGroupOf
      refine List.filterMap_eq_nil_iff.mpr ?_
      intro a ha
      have hc : cleanUrl a = "" := hall a (List.take_subset 5 (u :: rest) ha)
      simp [hc]
    simp [sendMessage, hmg]

/-- Witness for C8 at a single media URL with empty raw string. -/
theorem send_message_media_cases_witness :
    sendMessage true true (some [⟨"", "", "", ""⟩]) = false :=
  send_message_media_cases.2.2 true true [⟨"", "", "", ""⟩] (by simp)
    (by intro u hu; rw [List.mem_singleton] at hu; subst hu; rfl)

/-- Claim C9 (confirmed): when the wrapped operation raises an ordinary
transport (network) error on every invocation and the connection probe
passes, `_send_with_retry` at the default `max_retries = 5` invokes the
operation exactly 5 times and ends by raising the last network error;
`send_message` catches it and reports failure at the delivery boundary,
so the pipeline's commit step leaves the dedupe store unchanged. -/
theorem retry_exhaustion (op : Nat → CallOutcome) (connOk : Nat → Bool) (now : Nat)
    (id : String) (storage : List String)
    (hop : ∀ i, op i = CallOutcome.netErr) (hconn : ∀ i, connOk i = true) :
    (sendWithRetry op connOk now 5 (initBotState now)).1.opCalls = 5
    ∧ (sendWithRetry op connOk now 5 (initBotState now)).2 = RetryRes.raised SendErr.netErr
    ∧ sendMessageResult (sendWithRetry op connOk now 5 (initBotState now)).2 = false
    ∧ commitOnSuccess
        (sendMessageResult (sendWithRetry op connOk now 5 (initBotState now)).2)
        id storage = storage := by
  have h1 : op = fun _ => CallOutcome.netErr := funext hop
  have h2 : connOk = fun _ => true := funext hconn
  subst h1 h2
  exact ⟨rfl, rfl, rfl, rfl⟩

/-- Witness for C9 at the constantly failing operation and passing probe. -/
theorem retry_exhaustion_witness :
    (sendWithRetry (fun _ => CallOutcome.netErr) (fun _ => true) 0 5
        (initBotState 0)).1.opCalls = 5
    ∧ (sendWithRetry (fun _ => CallOutcome.netErr) (fun _ => true) 0 5
        (initBotState 0)).2 = RetryRes.raised SendErr.netErr
    ∧ sendMessageResult (sendWithRetry (fun _ => CallOutcome.netErr) (fun _ => true) 0 5
        (initBotState 0)).2 = false
    ∧ commitOnSuccess
        (sendMessageResult (sendWithRetry (fun _ => CallOutcome.netErr) (fun _ => true) 0 5
          (initBotState 0)).2) "x" [] = [] :=
  retry_exhaustion (fun _ => CallOutcome.netErr) (fun _ => true) 0 "x" []
    (fun _ => rfl) (fun _ => rfl)

/-- Admissible enumeration given by `List.dedup` (first occurrences, in
order). -/
theorem isSetEnum_dedup : IsSetEnum (fun l => l.dedup) :=
  fun l => ⟨l.nodup_dedup, fun _ => List.mem_dedup⟩

/-- Admissible enumeration given by `List.dedup` followed by `reverse`. -/
theorem isSetEnum_dedup_reverse : IsSetEnum (fun l => l.dedup.reverse) :=
  fun l => ⟨List.nodup_reverse.mpr l.nodup_dedup,
    fun x => by rw [List.mem_reverse, List.mem_dedup]⟩

/-- Claim C10 (confirmed): whatever iteration order the runtime uses for
`set(v)`, the validated images list contains each distinct URL of the
input exactly once and nothing else; and the relative input order is not
preserved in general — some admissible enumeration reverses it. -/
theorem clean_images_distinct_once :
    (∀ (e : List String → List String) (v : List String) (u : String), IsSetEnum e →
      (cleanImages e v).count u = if u ∈ v then 1 else 0)
    ∧ ∃ e, IsSetEnum e ∧ cleanImages e ["a", "b"] = ["b", "a"] := by
  constructor
  · intro e v u he
    obtain ⟨hnd, hmem⟩ := he v
    by_cases hu : u ∈ v
    · rw [if_pos hu]
      exact List.count_eq_one_of_mem hnd ((hmem u).mpr hu)
    · rw [if_neg hu]
      exact List.count_eq_zero.mpr (fun h => hu ((hmem u).mp h))
  · exact ⟨fun l => l.dedup.reverse, isSetEnum_dedup_reverse, by decide⟩

/-- Witness for C10 at the first-occurrence enumeration and a duplicated
input. -/
theorem clean_images_distinct_once_witness :
    (cleanImages (fun l => l.dedup) ["a", "a", "b"]).count "a" = 1 := by
  have h := clean_images_distinct_once.1 (fun l => l.dedup) ["a", "a", "b"] "a" isSetEnum_dedup
  simpa using h

/-! ## Helper lemmas for the batch loop (C1) -/

theorem processLoop_nil (tr : Nat → Bool) (processed : List String) (n : Nat) :
    processLoop tr [] processed n = { processed := processed, trace := [] } := rfl

theorem processLoop_skip (tr : Nat → Bool) {p : PostM} (ps : List PostM)
    {processed : List String} (n : Nat) (hp : p.id ∈ processed) :
    processLoop tr (p :: ps) processed n = processLoop tr ps processed n := by
  rw [processLoop]
  exact if_pos hp

theorem processLoop_trace_cons (tr : Nat → Bool) {p : PostM} (ps : List PostM)
    {processed : List String} (n : Nat) (hp : p.id ∉ processed) :
    (processLoop tr (p :: ps) processed n).trace
      = (p.id, tr n)
        :: (processLoop tr ps (if tr n then p.id :: processed else processed) (n + 1)).trace := by
  rw [processLoop, if_neg hp]

theorem processLoop_no_attempt (tr : Nat → Bool) (id : String) :
    ∀ (ps : List PostM) (processed : List String) (n : Nat), id ∈ processed →
      ∀ e ∈ (processLoop tr ps processed n).trace, e.1 ≠ id := by
  intro ps
  induction ps with
  | nil =>
    intro processed n _ e he
    simp [processLoop_nil] at he
  | cons p ps ih =>
    intro processed n hid e he
    by_cases hp : p.id ∈ processed
    · rw [processLoop_skip tr ps n hp] at he
      exact ih processed n hid e he
    · rw [processLoop_trace_cons tr ps n hp] at he
      rcases List.mem_cons.mp he with h1 | h2
      · subst h1
        intro hc
        exact hp (by rw [show p.id = id from hc]; exact hid)
      · have hid2 : id ∈ (if tr n then p.id :: processed else processed) := by
          split
          · exact List.mem_cons_of_mem _ hid
          · exact hid
        exact ih _ (n + 1) hid2 e h2

theorem all_dropLast_cons {α : Type} (p : α → Bool) (x : α) (xs : List α)
    (hx : p x = true) (h : (xs.dropLast).all p = true) :
    ((x :: xs).dropLast).all p = true := by
  cases xs with
  | nil => simp
  | cons y ys =>
    have hd : ((x :: y :: ys).dropLast) = x :: ((y :: ys).dropLast) := rfl
    rw [hd, List.all_cons, hx, Bool.true_and]
    exact h


theorem processLoop_success_last (tr : Nat → Bool) (id : String) :
    ∀ (ps : List PostM) (processed : List String) (n : Nat),
      (((processLoop tr ps processed n).trace.filter (fun e => e.1 == id)).dropLast).all
        (fun e => !e.2) = true := by
  intro ps
  induction ps with
  | nil =>
    intro processed n
    simp [processLoop_nil]
  | cons p ps ih =>
    intro processed n
    by_cases hp : p.id ∈ processed
    · rw [processLoop_skip tr ps n hp]
      exact ih processed n
    · rw [processLoop_trace_cons tr ps n hp]
      rw [List.filter_cons]
      by_cases hpid : p.id = id
      · subst hpid
        rw [if_pos (by simp)]
        cases htr : tr n with
        | true =>
          have hnone : ∀ e ∈ (processLoop tr ps (p.id :: processed) (n + 1)).trace,
              e.1 ≠ p.id :=
            processLoop_no_attempt tr p.id ps (p.id :: processed) (n + 1)
              (List.mem_cons_self _ _)
          have hfil : ((processLoop tr ps (p.id :: processed) (n + 1)).trace.filter
              (fun e => e.1 == p.id)) = [] := by
            rw [List.filter_eq_nil_iff]
            intro e he
            simpa using hnone e he
          simp [hfil]
        | false =>
          exact all_dropLast_cons (fun e : String × Bool => !e.2) (p.id, false) _ (by simp)
            (ih processed (n + 1))
      · rw [if_neg (by simp [hpid])]
        exact ih _ (n + 1)

theorem processLoop_success_nodup (tr : Nat → Bool) :
    ∀ (ps : List PostM) (processed : List String) (n : Nat),
      (((processLoop tr ps processed n).trace.filter (fun e => e.2)).map Prod.fst).Nodup := by
  intro ps
  induction ps with
  | nil =>
    intro processed n
    simp [processLoop_nil]
  | cons p ps ih =>
    intro processed n
    by_cases hp : p.id ∈ processed
    · rw [processLoop_skip tr ps n hp]
      exact ih processed n
    · rw [processLoop_trace_cons tr ps n hp]
      rw [List.filter_cons]
      cases htr : tr n with
      | false =>
        rw [if_neg (by simp)]
        exact ih _ (n + 1)
      | true =>
        rw [if_pos (by simp)]
        rw [List.map_cons]
        refine List.nodup_cons.mpr ⟨?_, ih _ (n + 1)⟩
        intro hmem
        obtain ⟨e, he, hfst⟩ := List.mem_map.mp hmem
        have hee : e ∈ (processLoop tr ps (p.id :: processed) (n + 1)).trace := by
          have := List.mem_of_mem_filter he
          simpa using this
        exact processLoop_no_attempt tr p.id ps (p.id :: processed) (n + 1)
          (List.mem_cons_self _ _) e hee hfst

/-- Claim C1 (counterexample): the claim predicts at most one transport
call per unique identifier within a batch; for a batch with two items of
identifier "x" and a transport that fails the first call, the loop calls
the transport twice for "x" (a failed attempt does not mark the id, so
the duplicate is re-attempted). -/
theorem batch_double_attempt_counterexample :
    (processNewPosts (fun _ => false) [] [⟨"x", none⟩, ⟨"x", none⟩]).trace
      = [("x", false), ("x", false)] := rfl

/-- Claim C1 (corrected): within a batch, per identifier only the last
transport call can succeed — once a send for an identifier succeeds the
id is marked processed and every later item with that identifier is
skipped without contacting the transport; hence at most one successful
send per unique identifier (the successful trace ids are without
duplicates).  Items whose earlier attempts failed may be re-attempted. -/
theorem batch_at_most_one_success (tr : Nat → Bool) (storage : List String)
    (posts : List PostM) (id : String) :
    (((processNewPosts tr storage posts).trace.filter (fun e => e.1 == id)).dropLast).all
        (fun e => !e.2) = true
    ∧ (((processNewPosts tr storage posts).trace.filter (fun e => e.2)).map Prod.fst).Nodup :=
  ⟨processLoop_success_last tr id _ storage 0, processLoop_success_nodup tr _ storage 0⟩

/-! ## Helper lemmas for the batch ordering (C2) -/

theorem insertPost_perm (p : PostM) (l : List PostM) : (insertPost p l).Perm (p :: l) := by
  induction l with
  | nil => exact List.Perm.refl _
  | cons q qs ih =>
    simp only [insertPost]
    split
    · exact (ih.cons q).trans (List.Perm.swap p q qs)
    · exact List.Perm.refl _

theorem insertPost_sorted (p : PostM) {l : List PostM}
    (h : List.Sorted (fun a b => dateKey a ≤ dateKey b) l) :
    List.Sorted (fun a b => dateKey a ≤ dateKey b) (insertPost p l) := by
  induction l with
  | nil => simp [insertPost]
  | cons q qs ih =>
    obtain ⟨hq, hqs⟩ := List.sorted_cons.mp h
    simp only [insertPost]
    split
    · next hle =>
      refine List.sorted_cons.mpr ⟨?_, ih hqs⟩
      intro b hb
      rcases List.mem_cons.mp ((insertPost_perm p qs).mem_iff.mp hb) with rfl | hbq
      · exact hle
      · exact hq b hbq
    · next hgt =>
      refine List.sorted_cons.mpr ⟨?_, h⟩
      intro b hb
      have hpq : dateKey p ≤ dateKey q := le_of_not_le hgt
      rcases List.mem_cons.mp hb with rfl | hbq
      · exact hpq
      · exact hpq.trans (hq b hbq)

theorem sortPosts_concat (l : List PostM) (p : PostM) :
    sortPosts (l ++ [p]) = insertPost p (sortPosts l) := by
  simp [sortPosts, List.foldl_append]

theorem sortPosts_sorted (l : List PostM) :
    List.Sorted (fun a b => dateKey a ≤ dateKey b) (sortPosts l) := by
  induction l using List.reverseRecOn with
  | nil => simp [sortPosts]
  | append_singleton l a ih =>
    rw [sortPosts_concat]
    exact insertPost_sorted a ih

theorem sortPosts_perm (l : List PostM) : (sortPosts l).Perm l := by
  induction l using List.reverseRecOn with
  | nil => exact List.Perm.refl _
  | append_singleton l a ih =>
    rw [sortPosts_concat]
    exact ((insertPost_perm a (sortPosts l)).trans (ih.cons a)).trans
      (List.perm_append_singleton a l).symm

theorem insertPost_filter (p : PostM) (k : Nat) :
    ∀ {l : List PostM}, List.Sorted (fun a b => dateKey a ≤ dateKey b) l →
      (insertPost p l).filter (fun q => dateKey q == k)
        = if dateKey p = k then l.filter (fun q => dateKey q == k) ++ [p]
          else l.filter (fun q => dateKey q == k) := by
  intro l
  induction l with
  | nil =>
    intro _
    by_cases hpk : dateKey p = k <;> simp [insertPost, List.filter_cons, hpk]
  | cons q qs ih =>
    intro h
    obtain ⟨hq, hqs⟩ := List.sorted_cons.mp h
    simp only [insertPost]
    split
    · next hle =>
      rw [List.filter_cons, List.filter_cons, ih hqs]
      by_cases hpk : dateKey p = k <;> by_cases hqk : dateKey q = k <;>
        simp [hpk, hqk]
    · next hgt =>
      have hpq : dateKey p < dateKey q := lt_of_not_le hgt
      by_cases hpk : dateKey p = k
      · have hnil : (q :: qs).filter (fun q2 => dateKey q2 == k) = [] := by
          rw [List.filter_eq_nil_iff]
          intro b hb
          have hkb : dateKey q ≤ dateKey b := by
            rcases List.mem_cons.mp hb with rfl | hbq
            · exact le_refl _
            · exact hq b hbq
          have hlt : k < dateKey b := lt_of_lt_of_le (hpk ▸ hpq) hkb
          simp [Nat.ne_of_gt hlt]
        rw [List.filter_cons, if_pos (by simp [hpk]), hnil, if_pos hpk]
        simp
      · rw [List.filter_cons, if_neg (by simp [hpk]), if_neg hpk]

theorem sortPosts_filter (l : List PostM) (k : Nat) :
    (sortPosts l).filter (fun q => dateKey q == k) = l.filter (fun q => dateKey q == k) := by
  induction l using List.reverseRecOn with
  | nil => rfl
  | append_singleton l a ih =>
    rw [sortPosts_concat, insertPost_filter a k (sortPosts_sorted l), List.filter_append]
    by_cases hak : dateKey a = k <;> simp [hak, ih, List.filter_cons]

/-- Claim C2 (counterexample): the claim predicts items without a publish
timestamp are attempted after all timestamped items; the sort key maps a
missing date to `datetime.min`, so the dateless item "B" is attempted
before the timestamped item "A". -/
theorem missing_date_attempted_first_counterexample :
    (processNewPosts (fun _ => true) [] [⟨"A", some 5⟩, ⟨"B", none⟩]).trace.map Prod.fst
      = ["B", "A"] := rfl

/-- Claim C2 (corrected): the surviving batch is delivered in ascending
order of the sort key, which is the publish timestamp with a missing
timestamp treated as the minimal value `datetime.min` — so dateless items
are attempted before (not after) all later-timestamped items; the sort is
a permutation and stable (items with equal keys, in particular all
dateless items, keep their relative input order); and for timestamps
[T3, T1, T2] with no missing dates the attempts occur in order
T1, T2, T3. -/
theorem delivery_order_sorted_stable :
    (∀ l : List PostM,
      List.Sorted (fun a b => dateKey a ≤ dateKey b) (sortPosts l)
      ∧ (sortPosts l).Perm l
      ∧ ∀ k, (sortPosts l).filter (fun q => dateKey q == k)
          = l.filter (fun q => dateKey q == k))
    ∧ (processNewPosts (fun _ => true) []
        [⟨"c", some 3⟩, ⟨"a", some 1⟩, ⟨"b", some 2⟩]).trace.map Prod.fst
      = ["a", "b", "c"] :=
  ⟨fun l => ⟨sortPosts_sorted l, sortPosts_perm l, fun k => sortPosts_filter l k⟩, rfl⟩
